import Mathlib

/-!
Shallow embedding of `src/monitor.py` (ScriptSoldOut).

Strings are modelled as `List Char` (Python `str`).  External capabilities
that are not part of the repository's code are modelled as abstract
parameters, faithful to how the source consumes them:

* `json.loads` on a string starting with `[` either fails (exception, caught
  by the source's `try`) or yields a top-level JSON array, i.e. a list of
  values each of which is or is not a Python `str`.  It is passed in as
  `jl : List Char → Option (List PyVal)`.
* `requests.get` + `BeautifulSoup(html, "html.parser")` are fused into
  `fetch : List Char → Option Doc`: `none` models any fetch failure
  (`fetch_html` returns `None`), `some doc` models the parsed document.
  A parsed document `Doc` exposes exactly what `page_contains_text` reads
  from the soup: the whole-page visible text (`soup.get_text`) and, per
  selector, the list of visible texts of the selected elements
  (`el.get_text` for `el` in `soup.select(sel)`).
* the `smtplib` session (connect, starttls, login, send) is passed to
  `send_email` as `transport`; its boolean result models success versus the
  caught exception path.
-/

namespace Monitor

/-- Python whitespace for `str.strip()`: space, tab, newline, carriage
return, vertical tab, form feed. -/
def pyIsSpace (c : Char) : Bool :=
  c == ' ' || c == '\t' || c == '\n' || c == '\r' || c == '\x0b' || c == '\x0c'

/-- Python `s.strip()`: drop whitespace from both ends. -/
def pyStrip (s : List Char) : List Char :=
  (((s.dropWhile pyIsSpace).reverse.dropWhile pyIsSpace)).reverse

/-- Python `s.split(sep)` for a single-character separator: `"".split(sep)`
is `[""]`, separators at the ends produce empty fields. -/
def pySplit (sep : Char) : List Char → List (List Char)
  | [] => [[]]
  | c :: rest =>
    match pySplit sep rest with
    | [] => if c == sep then [[], []] else [[c]]
    | h :: t => if c == sep then [] :: h :: t else (c :: h) :: t

/-- Does `l` start with `p`? -/
def strStartsWith : List Char → List Char → Bool
  | _, [] => true
  | [], _ :: _ => false
  | a :: as, b :: bs => (a == b) && strStartsWith as bs

/-- Python `needle in haystack` on strings: substring containment
(the empty needle is contained in everything). -/
def containsSub (needle : List Char) : List Char → Bool
  | [] => needle.isEmpty
  | a :: as => strStartsWith (a :: as) needle || containsSub needle as

/-- Python `s.lower()` (character-wise, as used on the ASCII search text). -/
def lowerStr (s : List Char) : List Char := s.map Char.toLower

/-- A parsed HTML document, exposing exactly what `page_contains_text`
reads from the BeautifulSoup object: `pageText` is
`soup.get_text(separator=" ", strip=True)`, and `select sel` is the list of
`el.get_text(separator=" ", strip=True)` for the elements matching `sel`,
in document order (empty list when the selector matches no element). -/
structure Doc where
  pageText : List Char
  select : List Char → List (List Char)

/-- A top-level JSON array element as seen by the comprehension in
`parse_urls`: either a Python `str` or something else (filtered out by
`isinstance(u, str)`). -/
inductive PyVal where
  | pstr (s : List Char) : PyVal
  | pother : PyVal
deriving DecidableEq

/-- `monitor.py` line 60: `page_contains_text(html, text, css_selector)`.
If the selector is truthy (non-empty) the haystack is the space-join of the
selected elements' texts, otherwise the whole page's text; then a
case-insensitive containment test. -/
def page_contains_text (soup : Doc) (text : List Char) (css_selector : List Char) : Bool :=
  let haystack :=
    if css_selector ≠ [] then List.intercalate [' '] (soup.select css_selector)
    else soup.pageText
  containsSub (lowerStr text) (lowerStr haystack)

/-- The tag appended to a URL that failed to fetch (line 96). -/
def fetchErrorTag : List Char := " [fetch error]".data

/-- Lines 40-45 of `parse_urls`: the `for sep in ["\n", ","]` loop —
`parts` after the loop.  Split on newline if any newline is present, else on
comma if any comma is present, else leave `parts` empty; each split entry is
stripped and empty entries are discarded. -/
def splitParts (raw : List Char) : List (List Char) :=
  if '\n' ∈ raw then ((pySplit '\n' raw).map pyStrip).filter (fun p => !p.isEmpty)
  else if ',' ∈ raw then ((pySplit ',' raw).map pyStrip).filter (fun p => !p.isEmpty)
  else []

/-- Line 46 of `parse_urls`: `return parts if parts else [raw]`. -/
def viaSplit (raw : List Char) : List (List Char) :=
  if splitParts raw = [] then [raw] else splitParts raw

/-- Line 36 of `parse_urls`: the comprehension
`[u.strip() for u in arr if isinstance(u, str) and u.strip()]`. -/
def jsonEntries (arr : List PyVal) : List (List Char) :=
  arr.filterMap (fun v =>
    match v with
    | PyVal.pstr s => if (pyStrip s).isEmpty then none else some (pyStrip s)
    | PyVal.pother => none)

/-- `monitor.py` line 29: `parse_urls(raw)`.  `jl` models `json.loads`
restricted to inputs starting with `[` (`some arr` when it parses to the
top-level array `arr`, `none` when it raises and the `except` falls through
to delimiter splitting). -/
def parse_urls (jl : List Char → Option (List PyVal)) (raw : List Char) : List (List Char) :=
  if raw = [] then []
  else if raw.head? = some '[' then
    match jl raw with
    | some arr => jsonEntries arr
    | none => viaSplit raw
  else viaSplit raw

/-- `monitor.py` line 90: `check_urls(urls, search_text, selector)`.
`fetch` models `fetch_html` composed with HTML parsing (`none` on any fetch
failure).  The `time.sleep` between requests has no observable effect on
the result lists and is not modelled. -/
def check_urls (fetch : List Char → Option Doc) (search_text selector : List Char) :
    List (List Char) → List (List Char) × List (List Char)
  | [] => ([], [])
  | url :: rest =>
    let r := check_urls fetch search_text selector rest
    match fetch url with
    | none => (r.1, (url ++ fetchErrorTag) :: r.2)
    | some doc =>
      if page_contains_text doc search_text selector then (url :: r.1, r.2)
      else (r.1, url :: r.2)

/-- The SMTP configuration read from the environment (lines 18-21).
`server`, `user`, `password` are `none` when the variable is unset;
`port` is always an integer (`int(os.getenv("SMTP_PORT", "587"))`). -/
structure SmtpConfig where
  server : Option (List Char)
  port : Int
  user : Option (List Char)
  password : Option (List Char)

/-- Python truthiness of an optional string: `None` and `""` are falsy. -/
def truthyStr : Option (List Char) → Bool
  | none => false
  | some s => !s.isEmpty

/-- `monitor.py` line 69: `send_email(subject, body)`.  Returns
(return value, whether an SMTP network call was attempted).  `transport`
models the `smtplib.SMTP` block (connect, starttls, login, send): its
boolean result is `True` on success and `False` on the caught-exception
path. -/
def send_email (cfg : SmtpConfig) (transport : SmtpConfig → List Char → List Char → Bool)
    (subject body : List Char) : Bool × Bool :=
  if truthyStr cfg.server && (cfg.port != 0) && truthyStr cfg.user && truthyStr cfg.password then
    (transport cfg subject body, true)
  else
    (false, false)

/-- The subject line composed at line 116:
`f"[ALERT] Found '{SEARCH_TEXT}' on {len(hits)}/{len(urls)} URL(s)"`. -/
def subjectLine (search : List Char) (nhits nurls : Nat) : List Char :=
  "[ALERT] Found \x27".data ++ search ++ "\x27 on ".data ++ (Nat.repr nhits).data
    ++ "/".data ++ (Nat.repr nurls).data ++ " URL(s)".data

/-- The body composed at lines 117-130 and joined with newlines. -/
def bodyText (search selector : List Char) (hits misses : List (List Char)) : List Char :=
  let notFoundLines : List (List Char) :=
    if misses = [] then ["- (none)".data] else misses.map (fun u => "- ".data ++ u)
  List.intercalate "\n".data
    (["Search text: \x27".data ++ search ++ "\x27".data,
      "CSS selector: \x27".data ++ (if selector = [] then "N/A".data else selector) ++ "\x27".data,
      []]
      ++ ["Found on:".data] ++ hits.map (fun u => "- ".data ++ u)
      ++ [[]] ++ ["Not found on:".data] ++ notFoundLines
      ++ [[], "Checked by monitor.py".data])

/-- Observable outcome of one run of `main` (lines 105-133): the two result
lists, the URLs that were fetched, the `(subject, body)` arguments of each
`send_email` call, whether an SMTP network call was attempted, and the
boolean result of the send. -/
structure RunResult where
  hits : List (List Char)
  misses : List (List Char)
  fetched : List (List Char)
  emailAttempts : List (List Char × List Char)
  smtpAttempted : Bool
  emailSent : Bool

/-- `monitor.py` line 105: `main()`.  `rawEnv` is the raw value of the
`TARGET_URLS` environment variable; line 15 strips it before `parse_urls`.
`search` and `selector` are the resolved `SEARCH_TEXT` and `CSS_SELECTOR`
configuration values. -/
def main (cfg : SmtpConfig) (transport : SmtpConfig → List Char → List Char → Bool)
    (jl : List Char → Option (List PyVal)) (fetch : List Char → Option Doc)
    (rawEnv search selector : List Char) : RunResult :=
  let urls := parse_urls jl (pyStrip rawEnv)
  if urls = [] then ⟨[], [], [], [], false, false⟩
  else
    let hm := check_urls fetch search selector urls
    if hm.1 = [] then ⟨hm.1, hm.2, urls, [], false, false⟩
    else
      let subject := subjectLine search hm.1.length urls.length
      let body := bodyText search selector hm.1 hm.2
      let res := send_email cfg transport subject body
      ⟨hm.1, hm.2, urls, [(subject, body)], res.2, res.1⟩

/-! ### Substring containment, characterised -/

theorem strStartsWith_iff (p : List Char) :
    ∀ l : List Char, strStartsWith l p = true ↔ ∃ t, l = p ++ t := by
  induction p with
  | nil => intro l; simp [strStartsWith]
  | cons b bs ih =>
    intro l
    cases l with
    | nil => simp [strStartsWith]
    | cons a as =>
      simp only [strStartsWith, Bool.and_eq_true, beq_iff_eq, ih as, List.cons_append,
        List.cons.injEq]
      constructor
      · rintro ⟨rfl, t, rfl⟩; exact ⟨t, rfl, rfl⟩
      · rintro ⟨t, rfl, rfl⟩; exact ⟨rfl, t, rfl⟩

theorem containsSub_iff (nd : List Char) :
    ∀ hay : List Char, containsSub nd hay = true ↔ ∃ s t, hay = s ++ nd ++ t := by
  intro hay
  induction hay with
  | nil =>
    simp only [containsSub, List.isEmpty_iff]
    constructor
    · rintro rfl; exact ⟨[], [], rfl⟩
    · rintro ⟨s, t, h⟩
      have h' := h.symm
      simp only [List.append_eq_nil] at h'
      tauto
  | cons a as ih =>
    rw [containsSub, Bool.or_eq_true, strStartsWith_iff nd, ih]
    constructor
    · rintro (⟨t, ht⟩ | ⟨s, t, ht⟩)
      · exact ⟨[], t, by simp [ht]⟩
      · exact ⟨a :: s, t, by simp [ht]⟩
    · rintro ⟨s, t, ht⟩
      cases s with
      | nil => exact Or.inl ⟨t, by simpa using ht⟩
      | cons c s' =>
        rcases ht with ⟨⟩
        exact Or.inr ⟨s', t, rfl⟩

theorem containsSub_nil_needle : ∀ hay : List Char, containsSub [] hay = true := by
  intro hay
  cases hay with
  | nil => rfl
  | cons a as => rw [containsSub]; simp [strStartsWith]

/-! ### Matcher claims (C6, C10, C1) -/

/-- Written from the spec's words (section 4.3 Matcher): the searchable text
is the whole document's visible text when no selector is configured, and the
space-joined visible texts of the selected elements otherwise. -/
def spec_searchable_text (soup : Doc) (css_selector : List Char) : List Char :=
  if css_selector = [] then soup.pageText
  else List.intercalate [' '] (soup.select css_selector)

/-- C6: matching is a case-insensitive substring test — `page_contains_text`
returns true iff the lowercased search text occurs as a contiguous substring
of the lowercased searchable text; in particular, with search text
`"SOLD OUT"` and no selector, a document whose visible text contains
`"Sold Out"` anywhere matches. -/
theorem C6_case_insensitive_substring :
    (∀ (soup : Doc) (text sel : List Char),
      page_contains_text soup text sel = true ↔
        ∃ s t, lowerStr (spec_searchable_text soup sel) = s ++ lowerStr text ++ t)
    ∧ (∀ soup : Doc, (∃ s t, soup.pageText = s ++ "Sold Out".data ++ t) →
        page_contains_text soup "SOLD OUT".data [] = true) := by
  have hiff : ∀ (soup : Doc) (text sel : List Char),
      page_contains_text soup text sel = true ↔
        ∃ s t, lowerStr (spec_searchable_text soup sel) = s ++ lowerStr text ++ t := by
    intro soup text sel
    by_cases h : sel = []
    · simp [page_contains_text, spec_searchable_text, h, containsSub_iff]
    · simp [page_contains_text, spec_searchable_text, h, containsSub_iff]
  refine ⟨hiff, ?_⟩
  rintro soup ⟨s, t, h⟩
  rw [hiff]
  refine ⟨lowerStr s, lowerStr t, ?_⟩
  have hmid : List.map Char.toLower "Sold Out".data = List.map Char.toLower "SOLD OUT".data := by
    decide
  have hsel : spec_searchable_text soup [] = soup.pageText := by
    simp [spec_searchable_text]
  rw [hsel, h]
  simp only [lowerStr, List.map_append]
  rw [hmid]

/-- A concrete parsed document: its whole-page visible text contains
`"Sold Out"` (and, lowercased, `"sold out"`), and every selector matches no
elements. -/
def docNoMatch : Doc := ⟨"The product is Sold Out".data, fun _ => []⟩

/-- C6 witness: concrete instance of the second conjunct. -/
theorem C6_witness : page_contains_text docNoMatch "SOLD OUT".data [] = true :=
  C6_case_insensitive_substring.2 docNoMatch
    ⟨"The product is ".data, [], by decide⟩

/-- C10: the empty search text always matches — for every document and every
selector (including a non-empty selector matching no elements, where the
haystack is empty), `page_contains_text` returns true, because the empty
string is a substring of every haystack. -/
theorem C10_empty_search_text :
    ∀ (soup : Doc) (sel : List Char), page_contains_text soup [] sel = true := by
  intro soup sel
  unfold page_contains_text
  exact containsSub_nil_needle _

/-- C1 counterexample: the claim as stated quantifies over the search text
only implicitly, and fails for the empty search text: with a non-empty
selector (`"div"`) that matches no elements in the document,
`page_contains_text` returns true (not false) when the search text is
empty. -/
theorem C1_counterexample :
    ("div".data ≠ ([] : List Char))
    ∧ docNoMatch.select "div".data = []
    ∧ page_contains_text docNoMatch [] "div".data = true :=
  ⟨by decide, rfl, by decide⟩

/-- C1 (amended: the search text must be non-empty): for every document,
every non-empty selector that matches no elements, and every non-empty
search text, `page_contains_text` returns false — the haystack is the empty
concatenation, never the whole-page text. -/
theorem C1_no_fallback (soup : Doc) (sel text : List Char)
    (hsel : sel ≠ []) (hmatch : soup.select sel = []) (htext : text ≠ []) :
    page_contains_text soup text sel = false := by
  unfold page_contains_text
  simp only [if_pos hsel, hmatch]
  have hjoin : List.intercalate ([' '] : List Char) [] = [] := rfl
  rw [hjoin]
  show containsSub (lowerStr text) (lowerStr []) = false
  simp [containsSub, lowerStr, List.isEmpty_iff, List.map_eq_nil_iff, htext]

/-- C1 witness: a non-empty selector matching nothing, a non-empty search
text that does occur in the whole-page text — still no match. -/
theorem C1_witness : page_contains_text docNoMatch "Sold Out".data "div".data = false :=
  C1_no_fallback docNoMatch "div".data "Sold Out".data (by decide) rfl (by decide)

/-! ### Orchestration claims (C4) -/

/-- The per-URL hit classification of lines 94-99: the page was fetched and
the matcher succeeded on it. -/
def isHit (fetch : List Char → Option Doc) (search_text selector u : List Char) : Bool :=
  match fetch u with
  | some doc => page_contains_text doc search_text selector
  | none => false

/-- The per-URL miss-side display entry of lines 95-101: fetch errors are
tagged distinctly, non-matching pages appear verbatim, hits produce no
miss entry. -/
def missEntry (fetch : List Char → Option Doc) (search_text selector u : List Char) :
    Option (List Char) :=
  match fetch u with
  | none => some (u ++ fetchErrorTag)
  | some doc => if page_contains_text doc search_text selector then none else some u

theorem check_urls_eq (fetch : List Char → Option Doc) (search_text selector : List Char) :
    ∀ urls : List (List Char),
      check_urls fetch search_text selector urls =
        (urls.filter (isHit fetch search_text selector),
         urls.filterMap (missEntry fetch search_text selector)) := by
  intro urls
  induction urls with
  | nil => rfl
  | cons u rest ih =>
    simp only [check_urls, ih]
    cases hf : fetch u with
    | none => simp [List.filter_cons, List.filterMap_cons, isHit, missEntry, hf]
    | some doc =>
      by_cases hp : page_contains_text doc search_text selector = true <;>
        simp [List.filter_cons, List.filterMap_cons, isHit, missEntry, hf, hp]

theorem check_urls_length (fetch : List Char → Option Doc) (search_text selector : List Char) :
    ∀ urls : List (List Char),
      (check_urls fetch search_text selector urls).1.length
        + (check_urls fetch search_text selector urls).2.length = urls.length := by
  intro urls
  induction urls with
  | nil => rfl
  | cons u rest ih =>
    simp only [check_urls]
    cases hf : fetch u with
    | none => simp [List.length_cons]; omega
    | some doc =>
      by_cases hp : page_contains_text doc search_text selector = true <;>
        simp [hp, List.length_cons] <;> omega

/-- Every miss-side entry is either a checked URL verbatim or a checked URL
with the fetch-error tag appended. -/
theorem check_urls_miss_shape (fetch : List Char → Option Doc)
    (search_text selector : List Char) (urls : List (List Char)) :
    ∀ m ∈ (check_urls fetch search_text selector urls).2,
      m ∈ urls ∨ ∃ w, w ∈ urls ∧ m = w ++ fetchErrorTag := by
  intro m hm
  rw [check_urls_eq] at hm
  rcases List.mem_filterMap.mp hm with ⟨u, hu, he⟩
  unfold missEntry at he
  cases hf : fetch u with
  | none =>
    rw [hf] at he
    exact Or.inr ⟨u, hu, (Option.some_injective _ he).symm⟩
  | some doc =>
    rw [hf] at he
    by_cases hp : page_contains_text doc search_text selector = true
    · simp [hp] at he
    · simp [hp] at he
      exact Or.inl (he ▸ hu)

/-- If every configured URL fails to fetch, the hit list is empty. -/
theorem check_urls_all_fail (fetch : List Char → Option Doc)
    (search_text selector : List Char) (urls : List (List Char))
    (hall : ∀ u ∈ urls, fetch u = none) :
    (check_urls fetch search_text selector urls).1 = [] := by
  rw [check_urls_eq]
  simp only [List.filter_eq_nil_iff]
  intro u hu
  simp [isHit, hall u hu]

/-- C4: `check_urls` classifies each input URL into exactly one of the two
result lists — the pair it returns is precisely (URLs passing the hit
classification, in input order; miss-side display entries, in input order,
with fetch-error URLs tagged distinctly) — and the two lengths sum to the
number of input URLs. -/
theorem C4_one_entry_per_url (fetch : List Char → Option Doc)
    (search_text selector : List Char) (urls : List (List Char)) :
    check_urls fetch search_text selector urls =
      (urls.filter (isHit fetch search_text selector),
       urls.filterMap (missEntry fetch search_text selector))
    ∧ (check_urls fetch search_text selector urls).1.length
        + (check_urls fetch search_text selector urls).2.length = urls.length
    ∧ (∀ m ∈ (check_urls fetch search_text selector urls).2,
        m ∈ urls ∨ ∃ w, w ∈ urls ∧ m = w ++ fetchErrorTag) :=
  ⟨check_urls_eq fetch search_text selector urls,
   check_urls_length fetch search_text selector urls,
   check_urls_miss_shape fetch search_text selector urls⟩

/-! ### Properties of `pyStrip` -/

theorem dropWhile_idem (p : Char → Bool) :
    ∀ l : List Char, (l.dropWhile p).dropWhile p = l.dropWhile p := by
  intro l
  induction l with
  | nil => rfl
  | cons a as ih =>
    by_cases h : p a = true
    · simp [List.dropWhile_cons, h, ih]
    · simp [List.dropWhile_cons, h]

theorem dropWhile_length_le (p : Char → Bool) :
    ∀ l : List Char, (l.dropWhile p).length ≤ l.length := by
  intro l
  induction l with
  | nil => simp
  | cons a as ih =>
    by_cases h : p a = true
    · rw [List.dropWhile_cons, if_pos h]
      exact le_trans ih (by simp)
    · rw [List.dropWhile_cons, if_neg h]

theorem dropWhile_fix_head (p : Char → Bool) (a : Char) (rest : List Char)
    (h : (a :: rest).dropWhile p = a :: rest) : p a = false := by
  by_cases ha : p a = true
  · rw [List.dropWhile_cons, if_pos ha] at h
    have hle := dropWhile_length_le p rest
    rw [h] at hle
    simp at hle
  · simpa using ha

theorem dropWhile_decomp (p : Char → Bool) :
    ∀ l : List Char, ∃ w, l = w ++ l.dropWhile p ∧ ∀ c ∈ w, p c = true := by
  intro l
  induction l with
  | nil => exact ⟨[], rfl, by simp⟩
  | cons a as ih =>
    by_cases h : p a = true
    · rcases ih with ⟨w, hw, hall⟩
      refine ⟨a :: w, ?_, ?_⟩
      · simp only [List.dropWhile_cons, if_pos h, List.cons_append, List.cons.injEq, true_and]
        exact hw
      · intro c hc
        rcases List.mem_cons.mp hc with rfl | hc2
        · exact h
        · exact hall c hc2
    · exact ⟨[], by simp [List.dropWhile_cons, h], by simp⟩

/-- The back half of `str.strip()`: drop trailing whitespace. -/
def stripEnd (l : List Char) : List Char := (l.reverse.dropWhile pyIsSpace).reverse

theorem pyStrip_eq_stripEnd (s : List Char) :
    pyStrip s = stripEnd (s.dropWhile pyIsSpace) := rfl

theorem stripEnd_keeps_no_lead (l : List Char) (h : l.dropWhile pyIsSpace = l) :
    (stripEnd l).dropWhile pyIsSpace = stripEnd l := by
  rcases dropWhile_decomp pyIsSpace l.reverse with ⟨w, hw, hall⟩
  have hl : l = (l.reverse.dropWhile pyIsSpace).reverse ++ w.reverse := by
    have := congrArg List.reverse hw
    simpa using this
  rcases hd : (l.reverse.dropWhile pyIsSpace).reverse with _ | ⟨a, t⟩
  · simp [stripEnd, hd]
  · rw [hd] at hl
    have hfix : pyIsSpace a = false := by
      apply dropWhile_fix_head pyIsSpace a (t ++ w.reverse)
      have : l = a :: (t ++ w.reverse) := by simpa using hl
      rw [this] at h
      exact h
    simp [stripEnd, hd, List.dropWhile_cons, hfix]

theorem stripEnd_idem (l : List Char) : stripEnd (stripEnd l) = stripEnd l := by
  simp [stripEnd, List.reverse_reverse, dropWhile_idem]

theorem pyStrip_idem (s : List Char) : pyStrip (pyStrip s) = pyStrip s := by
  rw [pyStrip_eq_stripEnd s, pyStrip_eq_stripEnd,
    stripEnd_keeps_no_lead (s.dropWhile pyIsSpace) (dropWhile_idem pyIsSpace s),
    stripEnd_idem]

theorem pyStrip_all_space (s : List Char) (h : ∀ c ∈ s, pyIsSpace c = true) :
    pyStrip s = [] := by
  have hd : s.dropWhile pyIsSpace = [] := by
    rw [List.dropWhile_eq_nil_iff]
    exact h
  rw [pyStrip_eq_stripEnd, hd]
  rfl

/-! ### Configuration-resolver claims (C2, C3) -/

/-- Written from the spec's words ("the trimmed, non-empty entries in
original order"): strip every entry, discard the entries that become
empty, keep the order. -/
def trimmedNonEmpty (xs : List (List Char)) : List (List Char) :=
  (xs.map pyStrip).filter (fun p => !p.isEmpty)

/-- The strings of a JSON array whose elements are all strings. -/
def jsonStrings (arr : List PyVal) : List (List Char) :=
  arr.filterMap (fun v =>
    match v with
    | PyVal.pstr s => some s
    | PyVal.pother => none)

theorem trimmed_filter_entries (xs : List (List Char)) :
    ∀ u ∈ trimmedNonEmpty xs, pyStrip u = u ∧ u ≠ [] := by
  intro u hu
  rcases List.mem_filter.mp hu with ⟨hmem, hne⟩
  rcases List.mem_map.mp hmem with ⟨x, _, rfl⟩
  refine ⟨pyStrip_idem x, ?_⟩
  intro hEq
  rw [hEq] at hne
  simp at hne

theorem jsonEntries_entries (arr : List PyVal) :
    ∀ u ∈ jsonEntries arr, pyStrip u = u ∧ u ≠ [] := by
  intro u hu
  rcases List.mem_filterMap.mp hu with ⟨v, _, he⟩
  cases v with
  | pother => cases he
  | pstr s =>
    by_cases hs : (pyStrip s).isEmpty = true
    · simp [hs] at he
    · simp [hs] at he
      subst he
      exact ⟨pyStrip_idem s, by simpa [List.isEmpty_iff] using hs⟩

theorem viaSplit_entries (raw : List Char) (hraw : pyStrip raw = raw) (h0 : raw ≠ []) :
    ∀ u ∈ viaSplit raw, pyStrip u = u ∧ u ≠ [] := by
  intro u hu
  unfold viaSplit at hu
  by_cases hp : splitParts raw = []
  · rw [if_pos hp] at hu
    rcases List.mem_singleton.mp hu with rfl
    exact ⟨hraw, h0⟩
  · rw [if_neg hp] at hu
    unfold splitParts at hu
    by_cases hn : '\n' ∈ raw
    · rw [if_pos hn] at hu
      exact trimmed_filter_entries _ u hu
    · rw [if_neg hn] at hu
      by_cases hc : ',' ∈ raw
      · rw [if_pos hc] at hu
        exact trimmed_filter_entries _ u hu
      · rw [if_neg hc] at hu
        cases hu

/-- `json.loads` modelled as always raising; on inputs that do not start
with `[` the model `jl` is never consulted, so this also serves those
cases. -/
def jlNone : List Char → Option (List PyVal) := fun _ => none

/-- C3 counterexample: on the input `" a"` (leading space, no separator,
not starting with `[`), `parse_urls` returns the raw input verbatim —
line 46's `return parts if parts else [raw]` — so the single returned
entry still carries its leading space: it is not trimmed. -/
theorem C3_counterexample :
    parse_urls jlNone " a".data = [" a".data]
    ∧ pyStrip " a".data ≠ " a".data := ⟨by decide, by decide⟩

/-- C3 (amended: for input with no leading or trailing whitespace, which is
what the configuration resolver passes — line 15 strips the environment
value before `parse_urls` sees it): every returned entry is trimmed and
non-empty. -/
theorem C3_entries_trimmed (jl : List Char → Option (List PyVal)) (raw : List Char)
    (hraw : pyStrip raw = raw) :
    ∀ u ∈ parse_urls jl raw, pyStrip u = u ∧ u ≠ [] := by
  intro u hu
  unfold parse_urls at hu
  by_cases h0 : raw = []
  · rw [if_pos h0] at hu; cases hu
  · rw [if_neg h0] at hu
    by_cases hb : raw.head? = some '['
    · rw [if_pos hb] at hu
      cases hj : jl raw with
      | some arr => rw [hj] at hu; exact jsonEntries_entries arr u hu
      | none => rw [hj] at hu; exact viaSplit_entries raw hraw h0 u hu
    · rw [if_neg hb] at hu
      exact viaSplit_entries raw hraw h0 u hu

/-- C3 witness: a concrete pre-trimmed input with an empty field and
whitespace inside; the entry `"a"` of the result is trimmed and
non-empty. -/
theorem C3_witness : pyStrip "a".data = "a".data ∧ "a".data ≠ ([] : List Char) :=
  C3_entries_trimmed jlNone "a, ,b".data (by decide) "a".data (by decide)

theorem jsonEntries_eq_trimmed (arr : List PyVal)
    (h : ∀ v ∈ arr, ∃ s, v = PyVal.pstr s) :
    jsonEntries arr = trimmedNonEmpty (jsonStrings arr) := by
  induction arr with
  | nil => rfl
  | cons v rest ih =>
    rcases h v (List.mem_cons_self v rest) with ⟨s, rfl⟩
    have ih2 := ih (fun w hw => h w (List.mem_cons_of_mem _ hw))
    unfold jsonEntries jsonStrings trimmedNonEmpty at ih2 ⊢
    by_cases hs : (pyStrip s).isEmpty = true
    · simp only [List.filterMap_cons, List.map_cons, List.filter_cons, hs, ih2]
      simp [hs]
    · simp only [List.filterMap_cons, List.map_cons, List.filter_cons, ih2]
      simp [hs]

/-- C2: for each of the three accepted input shapes — a JSON array all of
whose elements are non-empty strings, a newline-separated list, and a
comma-separated list (with, for the split shapes, at least one entry
surviving trimming, i.e. the list really lists some URL) — `parse_urls`
returns exactly the trimmed, non-empty entries in their original order. -/
theorem C2_parse_shapes (jl : List Char → Option (List PyVal)) (raw : List Char)
    (arr : List PyVal) :
    (raw.head? = some '[' → jl raw = some arr →
      (∀ v ∈ arr, ∃ s, v = PyVal.pstr s ∧ s ≠ []) →
      parse_urls jl raw = trimmedNonEmpty (jsonStrings arr))
    ∧ (raw.head? ≠ some '[' → '\n' ∈ raw →
      trimmedNonEmpty (pySplit '\n' raw) ≠ [] →
      parse_urls jl raw = trimmedNonEmpty (pySplit '\n' raw))
    ∧ (raw.head? ≠ some '[' → '\n' ∉ raw → ',' ∈ raw →
      trimmedNonEmpty (pySplit ',' raw) ≠ [] →
      parse_urls jl raw = trimmedNonEmpty (pySplit ',' raw)) := by
  refine ⟨?_, ?_, ?_⟩
  · intro hb hj hstr
    have h0 : raw ≠ [] := by
      intro hnil; rw [hnil] at hb; cases hb
    unfold parse_urls
    rw [if_neg h0, if_pos hb, hj]
    exact jsonEntries_eq_trimmed arr (fun v hv => (hstr v hv).imp (fun s hs => hs.1))
  · intro hb hn hne
    have h0 : raw ≠ [] := List.ne_nil_of_mem hn
    have hsp : splitParts raw = trimmedNonEmpty (pySplit '\n' raw) := by
      unfold splitParts trimmedNonEmpty
      rw [if_pos hn]
    unfold parse_urls
    rw [if_neg h0, if_neg hb]
    unfold viaSplit
    rw [hsp, if_neg hne]
  · intro hb hn hc hne
    have h0 : raw ≠ [] := List.ne_nil_of_mem hc
    have hsp : splitParts raw = trimmedNonEmpty (pySplit ',' raw) := by
      unfold splitParts trimmedNonEmpty
      rw [if_neg hn, if_pos hc]
    unfold parse_urls
    rw [if_neg h0, if_neg hb]
    unfold viaSplit
    rw [hsp, if_neg hne]

/-- A concrete `json.loads` model: on the one JSON input used below it
returns the array `["a", " b "]`, as the real parser would. -/
def jlEx : List Char → Option (List PyVal) := fun raw =>
  if raw = "[\"a\", \" b \"]".data then some [PyVal.pstr "a".data, PyVal.pstr " b ".data]
  else none

/-- C2 witness: the three shapes at concrete inputs. -/
theorem C2_witness :
    parse_urls jlEx "[\"a\", \" b \"]".data = ["a".data, "b".data]
    ∧ parse_urls jlEx "a\n b ".data = ["a".data, "b".data]
    ∧ parse_urls jlEx "a, b".data = ["a".data, "b".data] := by
  refine ⟨?_, ?_, ?_⟩
  · have h := (C2_parse_shapes jlEx "[\"a\", \" b \"]".data
        [PyVal.pstr "a".data, PyVal.pstr " b ".data]).1 (by decide) (by decide)
      (by
        intro v hv
        rcases List.mem_cons.mp hv with rfl | hv2
        · exact ⟨"a".data, rfl, by decide⟩
        · rcases List.mem_cons.mp hv2 with rfl | hv3
          · exact ⟨" b ".data, rfl, by decide⟩
          · cases hv3)
    rw [h]; decide
  · have h := (C2_parse_shapes jlEx "a\n b ".data []).2.1 (by decide) (by decide) (by decide)
    rw [h]; decide
  · have h := (C2_parse_shapes jlEx "a, b".data []).2.2 (by decide) (by decide) (by decide)
      (by decide)
    rw [h]; decide

/-! ### Run-level claims (C5, C7, C8, C9) -/

/-- An SMTP configuration with no server, user or password set (the port
keeps its default 587). -/
def cfg0 : SmtpConfig := ⟨none, 587, none, none⟩

/-- An SMTP transport that always fails. -/
def transport0 : SmtpConfig → List Char → List Char → Bool := fun _ _ _ => false

/-- A fetcher for which every URL fails to fetch. -/
def fetchNone : List Char → Option Doc := fun _ => none

/-- Whatever happens around notification, the hit and miss lists reported
by `main` are exactly those computed by `check_urls` on the parsed URL
list (with `check_urls` on the empty list giving two empty lists). -/
theorem main_hits_misses (cfg : SmtpConfig) (transport : SmtpConfig → List Char → List Char → Bool)
    (jl : List Char → Option (List PyVal)) (fetch : List Char → Option Doc)
    (rawEnv search selector : List Char) :
    ((main cfg transport jl fetch rawEnv search selector).hits,
     (main cfg transport jl fetch rawEnv search selector).misses)
      = check_urls fetch search selector (parse_urls jl (pyStrip rawEnv)) := by
  simp only [main]
  by_cases h0 : parse_urls jl (pyStrip rawEnv) = []
  · rw [if_pos h0, h0]
    rfl
  · rw [if_neg h0]
    by_cases h1 : (check_urls fetch search selector (parse_urls jl (pyStrip rawEnv))).1 = []
    · rw [if_pos h1]
    · rw [if_neg h1]

/-- C5: a run attempts at most one email; an email is attempted only when
the hit list is non-empty; and when every configured URL fails to fetch,
the hit list is empty and no email is attempted. -/
theorem C5_email_gating (cfg : SmtpConfig) (transport : SmtpConfig → List Char → List Char → Bool)
    (jl : List Char → Option (List PyVal)) (fetch : List Char → Option Doc)
    (rawEnv search selector : List Char) :
    (main cfg transport jl fetch rawEnv search selector).emailAttempts.length ≤ 1
    ∧ ((main cfg transport jl fetch rawEnv search selector).emailAttempts ≠ [] →
        (main cfg transport jl fetch rawEnv search selector).hits ≠ [])
    ∧ ((∀ u ∈ parse_urls jl (pyStrip rawEnv), fetch u = none) →
        (main cfg transport jl fetch rawEnv search selector).hits = []
        ∧ (main cfg transport jl fetch rawEnv search selector).emailAttempts = []) := by
  simp only [main]
  by_cases h0 : parse_urls jl (pyStrip rawEnv) = []
  · rw [if_pos h0]
    exact ⟨by simp, fun h => absurd rfl h, fun _ => ⟨rfl, rfl⟩⟩
  · rw [if_neg h0]
    by_cases h1 : (check_urls fetch search selector (parse_urls jl (pyStrip rawEnv))).1 = []
    · rw [if_pos h1]
      exact ⟨by simp, fun h => absurd rfl h, fun _ => ⟨h1, rfl⟩⟩
    · rw [if_neg h1]
      exact ⟨by simp, fun _ => h1,
        fun hall => absurd (check_urls_all_fail fetch search selector _ hall) h1⟩

/-- C5 witness: one configured URL, every fetch fails — empty hit list, no
email attempted. -/
theorem C5_witness :
    (main cfg0 transport0 jlNone fetchNone "a".data "SOLD OUT".data []).hits = []
    ∧ (main cfg0 transport0 jlNone fetchNone "a".data "SOLD OUT".data []).emailAttempts = [] :=
  (C5_email_gating cfg0 transport0 jlNone fetchNone "a".data "SOLD OUT".data []).2.2
    (fun _ _ => rfl)

/-- C9: a whitespace-only (or empty) `TARGET_URLS` value yields an empty
parsed list, and the run halts before any network activity: no URL is
fetched, no email is attempted, no SMTP call is made. -/
theorem C9_empty_config (cfg : SmtpConfig) (transport : SmtpConfig → List Char → List Char → Bool)
    (jl : List Char → Option (List PyVal)) (fetch : List Char → Option Doc)
    (rawEnv search selector : List Char)
    (hws : ∀ c ∈ rawEnv, pyIsSpace c = true) :
    parse_urls jl (pyStrip rawEnv) = []
    ∧ (main cfg transport jl fetch rawEnv search selector).fetched = []
    ∧ (main cfg transport jl fetch rawEnv search selector).emailAttempts = []
    ∧ (main cfg transport jl fetch rawEnv search selector).smtpAttempted = false := by
  have hstrip : pyStrip rawEnv = [] := pyStrip_all_space rawEnv hws
  have hp : parse_urls jl (pyStrip rawEnv) = [] := by
    rw [hstrip]
    rfl
  refine ⟨hp, ?_, ?_, ?_⟩ <;> simp only [main] <;> rw [if_pos hp]

/-- C9 witness: a concrete whitespace-only configuration value. -/
theorem C9_witness :
    parse_urls jlNone (pyStrip "  \n ".data) = []
    ∧ (main cfg0 transport0 jlNone fetchNone "  \n ".data "SOLD OUT".data []).fetched = []
    ∧ (main cfg0 transport0 jlNone fetchNone "  \n ".data "SOLD OUT".data []).emailAttempts = []
    ∧ (main cfg0 transport0 jlNone fetchNone "  \n ".data "SOLD OUT".data []).smtpAttempted
        = false :=
  C9_empty_config cfg0 transport0 jlNone fetchNone "  \n ".data "SOLD OUT".data [] (by decide)

/-- C7: if the SMTP server, user or password is missing (or the port is the
falsy 0 — the port itself always has the integer default 587 and cannot be
absent), `send_email` returns failure without attempting any SMTP network
call, and the run still completes: `main` makes no SMTP call, reports the
send as failed, and still produces the full hit/miss classification. -/
theorem C7_missing_smtp (cfg : SmtpConfig) (transport : SmtpConfig → List Char → List Char → Bool)
    (subject body : List Char)
    (jl : List Char → Option (List PyVal)) (fetch : List Char → Option Doc)
    (rawEnv search selector : List Char)
    (hmiss : cfg.server = none ∨ cfg.user = none ∨ cfg.password = none ∨ cfg.port = 0) :
    send_email cfg transport subject body = (false, false)
    ∧ (main cfg transport jl fetch rawEnv search selector).smtpAttempted = false
    ∧ (main cfg transport jl fetch rawEnv search selector).emailSent = false
    ∧ ((main cfg transport jl fetch rawEnv search selector).hits,
       (main cfg transport jl fetch rawEnv search selector).misses)
        = check_urls fetch search selector (parse_urls jl (pyStrip rawEnv)) := by
  have hguard : (truthyStr cfg.server && (cfg.port != 0) && truthyStr cfg.user
      && truthyStr cfg.password) = false := by
    rcases hmiss with h | h | h | h <;> simp [truthyStr, h]
  have hsend : ∀ s b, send_email cfg transport s b = (false, false) := by
    intro s b
    simp [send_email, hguard]
  refine ⟨hsend subject body, ?_, ?_,
    main_hits_misses cfg transport jl fetch rawEnv search selector⟩ <;>
    · simp only [main]
      by_cases h0 : parse_urls jl (pyStrip rawEnv) = []
      · rw [if_pos h0]
      · rw [if_neg h0]
        by_cases h1 : (check_urls fetch search selector (parse_urls jl (pyStrip rawEnv))).1 = []
        · rw [if_pos h1]
        · rw [if_neg h1]
          simp [hsend]

/-- C7 witness: no SMTP server configured; the send fails without a network
call and the run still classifies its one (unfetchable) URL. -/
theorem C7_witness :
    send_email cfg0 transport0 "s".data "b".data = (false, false)
    ∧ (main cfg0 transport0 jlNone fetchNone "a".data "SOLD OUT".data []).smtpAttempted = false
    ∧ (main cfg0 transport0 jlNone fetchNone "a".data "SOLD OUT".data []).emailSent = false
    ∧ ((main cfg0 transport0 jlNone fetchNone "a".data "SOLD OUT".data []).hits,
       (main cfg0 transport0 jlNone fetchNone "a".data "SOLD OUT".data []).misses)
        = check_urls fetchNone "SOLD OUT".data []
            (parse_urls jlNone (pyStrip "a".data)) :=
  C7_missing_smtp cfg0 transport0 "s".data "b".data jlNone fetchNone "a".data "SOLD OUT".data []
    (Or.inl rfl)

theorem subjectLine_one (search : List Char) (n : Nat) :
    subjectLine search 1 n =
      "[ALERT] Found \x27".data ++ search ++ "\x27 on 1/".data
        ++ (Nat.repr n).data ++ " URL(s)".data := by
  unfold subjectLine
  simp only [List.append_assoc]
  rfl

/-- When the parsed URL list is non-empty and the hit list is non-empty,
`main` attempts exactly the one email composed at lines 116-131. -/
theorem main_email (cfg : SmtpConfig) (transport : SmtpConfig → List Char → List Char → Bool)
    (jl : List Char → Option (List PyVal)) (fetch : List Char → Option Doc)
    (rawEnv search selector : List Char)
    (h0 : parse_urls jl (pyStrip rawEnv) ≠ [])
    (h1 : (check_urls fetch search selector (parse_urls jl (pyStrip rawEnv))).1 ≠ []) :
    (main cfg transport jl fetch rawEnv search selector).emailAttempts =
      [(subjectLine search
          (check_urls fetch search selector (parse_urls jl (pyStrip rawEnv))).1.length
          (parse_urls jl (pyStrip rawEnv)).length,
        bodyText search selector
          (check_urls fetch search selector (parse_urls jl (pyStrip rawEnv))).1
          (check_urls fetch search selector (parse_urls jl (pyStrip rawEnv))).2)] := by
  simp only [main]
  rw [if_neg h0, if_neg h1]

/-- C8: when exactly one URL matches, the attempted email's subject states
the search text and reports the hit count as `1/N` (N the number of
configured URLs), and its body lists the search text, the selector (or
`N/A` when none), the matching URL under "Found on", and the miss-side
entries under "Not found on" (with an explicit `(none)` marker when that
list is empty); the miss-side holds the remaining N−1 entries, each a
non-matching URL verbatim or a fetch-error URL tagged distinctly. -/
theorem C8_email_composition (cfg : SmtpConfig)
    (transport : SmtpConfig → List Char → List Char → Bool)
    (jl : List Char → Option (List PyVal)) (fetch : List Char → Option Doc)
    (rawEnv search selector u : List Char)
    (hone : (check_urls fetch search selector (parse_urls jl (pyStrip rawEnv))).1 = [u]) :
    (main cfg transport jl fetch rawEnv search selector).emailAttempts =
      [("[ALERT] Found \x27".data ++ search ++ "\x27 on 1/".data
          ++ (Nat.repr (parse_urls jl (pyStrip rawEnv)).length).data ++ " URL(s)".data,
        List.intercalate "\n".data
          (["Search text: \x27".data ++ search ++ "\x27".data,
            "CSS selector: \x27".data ++ (if selector = [] then "N/A".data else selector)
              ++ "\x27".data,
            [], "Found on:".data, "- ".data ++ u, [], "Not found on:".data]
            ++ (if (check_urls fetch search selector (parse_urls jl (pyStrip rawEnv))).2 = []
                then ["- (none)".data]
                else (check_urls fetch search selector
                    (parse_urls jl (pyStrip rawEnv))).2.map (fun m => "- ".data ++ m))
            ++ [[], "Checked by monitor.py".data]))]
    ∧ (check_urls fetch search selector (parse_urls jl (pyStrip rawEnv))).2.length
        = (parse_urls jl (pyStrip rawEnv)).length - 1
    ∧ (∀ m ∈ (check_urls fetch search selector (parse_urls jl (pyStrip rawEnv))).2,
        m ∈ parse_urls jl (pyStrip rawEnv)
        ∨ ∃ w, w ∈ parse_urls jl (pyStrip rawEnv) ∧ m = w ++ fetchErrorTag) := by
  have hurls : parse_urls jl (pyStrip rawEnv) ≠ [] := by
    intro hnil
    rw [hnil] at hone
    cases hone
  have hne : (check_urls fetch search selector (parse_urls jl (pyStrip rawEnv))).1 ≠ [] := by
    rw [hone]
    simp
  refine ⟨?_, ?_, check_urls_miss_shape fetch search selector _⟩
  · rw [main_email cfg transport jl fetch rawEnv search selector hurls hne, hone]
    simp only [List.length_singleton]
    rw [subjectLine_one]
    rfl
  · have hlen := check_urls_length fetch search selector (parse_urls jl (pyStrip rawEnv))
    rw [hone] at hlen
    simp only [List.length_singleton] at hlen
    omega

/-- A page whose visible text contains the search text. -/
def docHit : Doc := ⟨"Now SOLD OUT everywhere".data, fun _ => []⟩

/-- A page whose visible text does not contain the search text. -/
def docMiss : Doc := ⟨"still available".data, fun _ => []⟩

/-- A fetcher serving `a` (matching) and `b` (not matching). -/
def fetchEx : List Char → Option Doc := fun v =>
  if v = "a".data then some docHit
  else if v = "b".data then some docMiss
  else none

/-- C8 witness: two configured URLs, exactly one matches — the attempted
email, in full. -/
theorem C8_witness :
    (main cfg0 transport0 jlNone fetchEx "a,b".data "SOLD OUT".data []).emailAttempts =
      [("[ALERT] Found \x27SOLD OUT\x27 on 1/2 URL(s)".data,
        "Search text: \x27SOLD OUT\x27\nCSS selector: \x27N/A\x27\n\nFound on:\n- a\n\nNot found on:\n- b\n\nChecked by monitor.py".data)] := by
  rw [(C8_email_composition cfg0 transport0 jlNone fetchEx "a,b".data "SOLD OUT".data []
    "a".data (by decide)).1]
  decide

end Monitor
